import Mathlib

/-!
A verification development for the chart-rendering and dashboard core of
`statsman` (files `src/statsman/ui/charts.py` and `src/statsman/ui/dashboard.py`).

Embedding conventions:
* Python floats are modelled as rationals (`ℚ`); the numeric claims under
  scrutiny are about exact geometry (truncation, clamping, guards), not about
  binary rounding.
* Python strings are modelled as `List Char`; a rich `Panel` is modelled as its
  list of text lines plus title and border style (the string joined with
  newlines in the source is kept as the list of its lines).
* Python `/` on numbers raises `ZeroDivisionError` when the denominator is
  zero; it is modelled by `pydiv`, returning `Option ℚ`, and fallible rendering
  functions return `Option _` (`none` = the Python call raises).
* Python `int(x)` truncates toward zero (`pytrunc`); Python `//` on integers is
  floor division (`Int.fdiv`).
-/

set_option linter.unusedVariables false

/-- Python `a / b` on numbers: `none` models `ZeroDivisionError`. -/
def pydiv (a b : ℚ) : Option ℚ := if b = 0 then none else some (a / b)

/-- Python `int(x)`: truncation toward zero. -/
def pytrunc (q : ℚ) : ℤ := if 0 ≤ q then ⌊q⌋ else ⌈q⌉

/-- Python `s.ljust(w)` / format `f"{s:w}"`: pad right with spaces to width `w`. -/
def pad_right (s : List Char) (w : ℕ) : List Char := s ++ List.replicate (w - s.length) ' '

/-- Right-justify (numeric formatting default): pad left with spaces to width `w`. -/
def pad_left (s : List Char) (w : ℕ) : List Char := List.replicate (w - s.length) ' ' ++ s

/-- Round half to even, as CPython does when formatting a float. -/
def rhe (q : ℚ) : ℤ :=
  if q - ⌊q⌋ < 1/2 then ⌊q⌋
  else if 1/2 < q - ⌊q⌋ then ⌊q⌋ + 1
  else if ⌊q⌋ % 2 = 0 then ⌊q⌋ else ⌊q⌋ + 1

/-- Python format `f"{q:w.1f}"`: one decimal digit, right-justified to width `w`. -/
def fmtf (q : ℚ) (w : ℕ) : List Char :=
  let n := rhe (q * 10)
  let a := n.natAbs
  pad_left ((if n < 0 then ['-'] else []) ++ (Nat.repr (a / 10)).data ++ ['.'] ++ (Nat.repr (a % 10)).data) w

/-- Python `min(xs)` for a nonempty list (junk value 0 on `[]`, never used behind the emptiness guards). -/
def pymin : List ℚ → ℚ
  | [] => 0
  | v :: vs => vs.foldl min v

/-- Python `max(xs)` for a nonempty list (junk value 0 on `[]`, never used behind the emptiness guards). -/
def pymax : List ℚ → ℚ
  | [] => 0
  | v :: vs => vs.foldl max v

/-- Python `xs[-n:]`: the last `n` elements, except that `xs[-0:]` is all of `xs`. -/
def pyslice_last (n : ℕ) (xs : List α) : List α :=
  if n = 0 then xs else xs.drop (xs.length - n)

/-- A rendered rich `Panel`: its text lines, optional title, and border style. -/
structure Panel where
  lines : List (List Char)
  title : Option (List Char)
  border_style : List Char
deriving DecidableEq

/-- `spark_chars` from `ChartRenderer.create_sparkline`. -/
def spark_chars : List Char := [' ', '▁', '▂', '▃', '▄', '▅', '▆', '▇', '█']

/-- One loop iteration of `create_sparkline`: the glyph chosen for `value`. -/
def spark_char (min_val range_val value : ℚ) : Option Char := do
  let normalized ← pydiv (value - min_val) range_val
  let char_index := min (pytrunc (normalized * spark_chars.length)) ((spark_chars.length : ℤ) - 1)
  pure (spark_chars.getD (max 0 char_index).toNat ' ')

/-- The `for value in recent_data` loop of `create_sparkline`, building the output string. -/
def render_sparks (min_val range_val : ℚ) : List ℚ → Option (List Char)
  | [] => some []
  | value :: rest => do
      let c ← spark_char min_val range_val value
      let cs ← render_sparks min_val range_val rest
      pure (c :: cs)

/-- `ChartRenderer.create_sparkline` (charts.py:15-33). `height` is accepted and unused, as in the source. -/
def create_sparkline (data : List ℚ) (width : ℕ) (height : ℕ) : Option (List Char) :=
  if data.isEmpty then some (List.replicate width ' ')
  else
    let min_val := pymin data
    let max_val := pymax data
    let range_val := if max_val ≠ min_val then max_val - min_val else 1
    let recent_data := if data.length > width then pyslice_last width data else data
    render_sparks min_val range_val recent_data

/-- `bar_width = int((value / max_val) * max_width) if max_val > 0 else 0` from
`create_horizontal_bars` (charts.py:72): `none` models the raising division. -/
def hbar_bw (max_val : ℚ) (max_width : ℕ) (value : ℚ) : Option ℤ :=
  if max_val > 0 then (pydiv value max_val).map (fun r => pytrunc (r * (max_width : ℚ))) else pure 0

/-- The row-emitting loop of `ChartRenderer.create_horizontal_bars` (charts.py:70-74). -/
def render_hbars (max_val : ℚ) (max_width : ℕ) : List (List Char × ℚ) → Option (List (List Char))
  | [] => some []
  | (label, value) :: rest => do
      let bar_width ← hbar_bw max_val max_width value
      let bar := List.replicate bar_width.toNat '█' ++ List.replicate ((max_width : ℤ) - bar_width).toNat '░'
      let line := pad_right label 6 ++ [' '] ++ bar ++ [' '] ++ fmtf value 5 ++ ['%']
      let rest' ← render_hbars max_val max_width rest
      pure (line :: rest')

/-- `ChartRenderer.create_horizontal_bars` (charts.py:64-76). -/
def create_horizontal_bars (data : List (List Char × ℚ)) (max_width : ℕ) : Option Panel :=
  if data.isEmpty then some ⟨["No data".data], none, "red".data⟩
  else
    let max_val : ℚ := if (data.map Prod.snd).isEmpty then 1 else pymax (data.map Prod.snd)
    (render_hbars max_val max_width data).map (fun lines => ⟨lines, none, "green".data⟩)

/-- The filled width that C8 (amended) ascribes to a horizontal-bar row. -/
def spec_hbar_fill (max_val : ℚ) (max_width : ℕ) (value : ℚ) : ℤ :=
  if max_val > 0 then ⌊value / max_val * max_width⌋ else 0

/-- The row shape that C8 (amended) ascribes to `create_horizontal_bars`: label in a
6-character field, a space, `filledWidth` solid blocks followed by
`maxWidth - filledWidth` light-shade blocks, a space, the value to 1 decimal in a
5-wide field, and a trailing `%`. -/
def spec_hbar_row (max_val : ℚ) (max_width : ℕ) (lv : List Char × ℚ) : List Char :=
  pad_right lv.1 6 ++ [' ']
    ++ List.replicate (spec_hbar_fill max_val max_width lv.2).toNat '█'
    ++ List.replicate ((max_width : ℤ) - spec_hbar_fill max_val max_width lv.2).toNat '░'
    ++ [' '] ++ fmtf lv.2 5 ++ ['%']

/-- The per-value `bar_widths` list comprehension of `create_vertical_bars` (charts.py:43). -/
def vbar_widths (max_val : ℚ) (width : ℕ) : List ℚ → Option (List ℤ)
  | [] => some []
  | v :: rest => do
      let bw ← hbar_bw max_val width v
      let rest' ← vbar_widths max_val width rest
      pure (bw :: rest')

/-- One text row of `create_vertical_bars` (charts.py:46-55): for each bar, a block or a
space according to `bar_width >= (level/height) * width`, followed by two spaces. -/
def vbar_line (height width level : ℕ) (bar_widths : List ℤ) : List Char :=
  bar_widths.foldl (fun line bw =>
    line ++ (if ((level : ℚ) / (height : ℚ)) * (width : ℚ) ≤ (bw : ℚ) then ['█'] else [' ']) ++ [' ', ' ']) []

/-- Python `range(height, 0, -1)`. -/
def countdown : ℕ → List ℕ
  | 0 => []
  | n + 1 => (n + 1) :: countdown n

/-- The label row of `create_vertical_bars` (charts.py:57-59): each label truncated to 8
characters, left-justified in an 8-wide field, followed by two spaces. -/
def vbar_label_line (labels : List (List Char)) : List Char :=
  labels.foldl (fun acc label => acc ++ pad_right (label.take 8) 8 ++ [' ', ' ']) []

/-- `ChartRenderer.create_vertical_bars` (charts.py:35-62). -/
def create_vertical_bars (data : List (List Char × ℚ)) (height width : ℕ) : Option Panel :=
  if data.isEmpty then some ⟨["No data".data], none, "red".data⟩
  else
    let labels := data.map Prod.fst
    let values := data.map Prod.snd
    let max_val : ℚ := if values.isEmpty then 1 else pymax values
    (vbar_widths max_val width values).map (fun bar_widths =>
      let lines := (countdown height).map (fun level => vbar_line height width level bar_widths)
      ⟨lines ++ [vbar_label_line labels], none, "blue".data⟩)

/-- A `ProcessRecord` snapshot row: the fields the core reads. -/
structure Proc where
  pid : ℕ
  name : List Char
  cpu_percent : ℚ
  memory_percent : ℚ
deriving DecidableEq

/-- The order of `sorted(processes, key=lambda p: p.cpu_percent, reverse=True)`
(charts.py:82): descending by `cpu_percent`. Python's sort is stable and so is
`List.mergeSort` with this relation. -/
def cpu_desc (a b : Proc) : Bool := decide (b.cpu_percent ≤ a.cpu_percent)

/-- The order of `procs.sort(key=lambda p: p.memory_percent, reverse=True)`
(dashboard.py:117): descending by `memory_percent`. -/
def mem_desc (a b : Proc) : Bool := decide (b.memory_percent ≤ a.memory_percent)

/-- `sorted_processes` from `create_mini_process_table` (charts.py:82). -/
def sorted_procs (processes : List Proc) : List Proc := processes.mergeSort cpu_desc

/-- `ChartRenderer._create_mini_bar` (charts.py:100-103). -/
def _create_mini_bar (percentage : ℚ) (width : ℤ) : List Char :=
  let filled := pytrunc ((percentage / 100) * (width : ℚ))
  List.replicate filled.toNat '█' ++ List.replicate (width - filled).toNat '░'

/-- `bar_width = max(5, min(10, (console_width - 25) // 4))` (charts.py:85). -/
def mini_bar_width (console_width : ℕ) : ℤ := max 5 (min 10 (((console_width : ℤ) - 25).fdiv 4))

/-- `max_name_width = max(10, min(20, (console_width - 35) // 2))` (charts.py:84);
computed by the source and never used afterwards. -/
def table_name_width (console_width : ℕ) : ℤ := max 10 (min 20 (((console_width : ℤ) - 35).fdiv 2))

/-- The fixed header row of `create_mini_process_table` (charts.py:87). -/
def table_header : List Char :=
  pad_right "PID".data 7 ++ [' '] ++ pad_right "PROCESS".data 20 ++ [' ']
    ++ pad_right "CPU".data 12 ++ [' '] ++ pad_right "MEM".data 12

/-- `separator = "=" * min(console_width - 4, 75)` (charts.py:88). -/
def table_sep (console_width : ℕ) : List Char :=
  List.replicate (min ((console_width : ℤ) - 4) 75).toNat '='

/-- The name field of a process row (charts.py:95). -/
def proc_name_field (name : List Char) : List Char :=
  if name.length > 20 then name.take 18 ++ "..".data else pad_right name 20

/-- One data row of `create_mini_process_table` (charts.py:92-96). -/
def proc_row (console_width : ℕ) (p : Proc) : List Char :=
  pad_right (Nat.repr p.pid).data 7 ++ [' '] ++ proc_name_field p.name ++ [' ']
    ++ _create_mini_bar p.cpu_percent (mini_bar_width console_width) ++ [' ']
    ++ _create_mini_bar p.memory_percent (mini_bar_width console_width)

/-- `ChartRenderer.create_mini_process_table` (charts.py:78-98). -/
def create_mini_process_table (processes : List Proc) (limit : ℕ) (console_width : ℕ) : Panel :=
  if processes.isEmpty then ⟨["No processes".data], none, "red".data⟩
  else
    ⟨table_header :: table_sep console_width ::
        ((sorted_procs processes).take limit).map (proc_row console_width),
      some "Top Processes".data, "magenta".data⟩

/-- `getCpuInfo()` shape: the fields the core reads. -/
structure CpuInfo where
  percent : ℚ
  percent_per_core : List ℚ
deriving DecidableEq

/-- `getMemoryInfo()` shape: the fields the core reads (`used`/`total` in bytes). -/
structure MemoryInfo where
  percent : ℚ
  used : ℕ
  total : ℕ
deriving DecidableEq

/-- `getDiskInfo()` shape: the field the core reads. -/
structure DiskInfo where
  percent : ℚ
deriving DecidableEq

/-- `getNetworkInfo()` shape: cumulative byte counters. -/
structure NetworkInfo where
  bytes_sent : ℕ
  bytes_recv : ℕ
deriving DecidableEq

/-- `f"C{i:02d}"` (charts.py:143): 2-digit zero-padded core label. -/
def core_label (i : ℕ) : List Char :=
  'C' :: (if i < 10 then '0' :: (Nat.repr i).data else (Nat.repr i).data)

/-- `bar_width = max(20, min(40, console_width // 8))` (charts.py:145). -/
def cpu_core_bar_width (console_width : ℕ) : ℕ := max 20 (min 40 (console_width / 8))

/-- `ChartRenderer.create_cpu_core_visualization` (charts.py:137-146). -/
def create_cpu_core_visualization (cpu : CpuInfo) (console_width : ℕ) : Option Panel :=
  if cpu.percent_per_core.isEmpty then some ⟨["No core data".data], none, "red".data⟩
  else
    let core_data := cpu.percent_per_core.enum.map (fun iv => (core_label iv.1, iv.2))
    create_vertical_bars core_data 8 (cpu_core_bar_width console_width)

/-- `ChartRenderer._create_gauge` (charts.py:120-123): modelled as the markup text line
the source builds. The denominator 100 is a constant, so the division is total. -/
def _create_gauge (percentage : ℚ) (label : List Char) (width : ℕ) : List Char :=
  let filled := pytrunc ((percentage / 100) * (width : ℚ))
  let bar := List.replicate filled.toNat '█' ++ List.replicate ((width : ℤ) - filled).toNat '░'
  "[bold]".data ++ label ++ ":[/bold] ".data ++ bar ++ [' '] ++ fmtf percentage 5 ++ ['%']

/-- `gauge_width = max(15, min(30, console_width // 4))` (charts.py:107). -/
def gauge_width (console_width : ℕ) : ℕ := max 15 (min 30 (console_width / 4))

/-- `ChartRenderer.create_system_gauges` (charts.py:105-118). -/
def create_system_gauges (cpu : CpuInfo) (memory : MemoryInfo) (disk : DiskInfo)
    (console_width : ℕ) : Panel :=
  ⟨[_create_gauge cpu.percent "CPU".data (gauge_width console_width),
    _create_gauge memory.percent "MEM".data (gauge_width console_width),
    _create_gauge disk.percent "DSK".data (gauge_width console_width)],
    none, "cyan".data⟩

/-- `ChartRenderer.create_network_visualization` (charts.py:125-135). The divisors are
the constants `1024 * 1024`, so those divisions are total. -/
def create_network_visualization (network : NetworkInfo) (console_width : ℕ) : Option Panel :=
  let sent_mb : ℚ := (network.bytes_sent : ℚ) / (1024 * 1024)
  let recv_mb : ℚ := (network.bytes_recv : ℚ) / (1024 * 1024)
  let network_data :=
    [("UPLOAD".data, min (sent_mb * 10) 100), ("DOWNLOAD".data, min (recv_mb * 10) 100)]
  create_horizontal_bars network_data (max 15 (min 70 (console_width / 2)))

/-- `ChartRenderer.create_memory_breakdown` (charts.py:148-158): the divisions by
`total_gb` are unguarded in the source, so the result is `none` (`ZeroDivisionError`)
when `total = 0`. -/
def create_memory_breakdown (memory : MemoryInfo) (console_width : ℕ) : Option Panel := do
  let used_gb : ℚ := (memory.used : ℚ) / (1024 ^ 3)
  let total_gb : ℚ := (memory.total : ℚ) / (1024 ^ 3)
  let u ← pydiv used_gb total_gb
  let f ← pydiv (total_gb - used_gb) total_gb
  let memory_data := [("USED".data, u * 100), ("FREE".data, f * 100)]
  create_horizontal_bars memory_data (max 15 (min 70 (console_width / 2)))

/-- Modelled from the spec: the abstract DataProvider (`SystemMonitor`), a collaborator
whose implementation lives outside the chart/dashboard sources — point-in-time
readings, bounded rolling histories of capacity `history_size`, and the current
process snapshot. -/
structure SystemMonitor where
  history_size : ℕ
  cpu_history : List ℚ
  memory_history : List ℚ
  cpu : CpuInfo
  memory : MemoryInfo
  disk : DiskInfo
  network : NetworkInfo
  processes : List Proc
deriving DecidableEq

/-- Modelled from the spec: a bounded rolling-buffer append — the new sample goes at
the end, the oldest samples are evicted beyond the capacity. -/
def roll_append (cap : ℕ) (h : List ℚ) (v : ℚ) : List ℚ :=
  let h2 := h ++ [v]
  h2.drop (h2.length - cap)

/-- Modelled from the spec: `updateHistory()` advances the CPU and memory rolling
buffers by one sample taken from the current snapshot. -/
def update_history (m : SystemMonitor) : SystemMonitor :=
  { m with
    cpu_history := roll_append m.history_size m.cpu_history m.cpu.percent,
    memory_history := roll_append m.history_size m.memory_history m.memory.percent }

/-- Modelled from the spec: `getProcessInfo(limit)` returns up to `limit` records of
the current process snapshot. -/
def get_process_info (m : SystemMonitor) (limit : ℕ) : List Proc := m.processes.take limit

/-- The controller state set up by `Dashboard.__init__` (dashboard.py:12-18): the only
UI-state field is the process sort key — there is no paused flag. `console_height`
stands for `self.console.size.height`. -/
structure Dashboard where
  monitor : SystemMonitor
  sort_processes_by : List Char
  console_height : ℕ
deriving DecidableEq

/-- `Dashboard.__init__` (dashboard.py:12-18): monitor with `history_size=120`, sort
key `"cpu"`. -/
def dashboard_init (m : SystemMonitor) (console_height : ℕ) : Dashboard :=
  ⟨{ m with history_size := 120 }, "cpu".data, console_height⟩

/-- A `Panel(Group(Text(heading), spark, inner), title=..., border_style=...)` as built
by `_create_cpu_cores` and `_create_memory_visual` (dashboard.py:91-105). -/
structure GroupPanel where
  heading : List Char
  spark : List Char
  inner : Panel
  title : List Char
  border_style : List Char
deriving DecidableEq

/-- The composed layout regions `render()` fills (dashboard.py:67-83). -/
structure RenderedLayout where
  header : Panel
  footer : Panel
  gauges : Panel
  cores : GroupPanel
  memory_panel : GroupPanel
  network : Panel
  processes : Panel
deriving DecidableEq

/-- `Dashboard._create_header` (dashboard.py:47-52). -/
def _create_header : Panel :=
  ⟨["StatsMan - System Monitor".data], none, "bright_blue".data⟩

/-- `Dashboard._create_footer` (dashboard.py:54-65): the markup line (note it
advertises a `p` pause key, handled — if at all — outside the controller). -/
def _create_footer : Panel :=
  ⟨["[bold cyan]q[/] quit │ [bold cyan]p[/] pause │ [bold cyan]c[/] sort CPU │ [bold cyan]m[/] sort MEM".data],
    none, "bright_black".data⟩

/-- `Dashboard._create_system_gauges` (dashboard.py:85-89); chart calls use the default
`console_width = 80`. -/
def _dashboard_gauges (m : SystemMonitor) : Panel :=
  create_system_gauges m.cpu m.memory m.disk 80

/-- `Dashboard._create_cpu_cores` (dashboard.py:91-97). -/
def _create_cpu_cores (m : SystemMonitor) : Option GroupPanel := do
  let spark ← create_sparkline m.cpu_history 80 6
  let cores ← create_cpu_core_visualization m.cpu 80
  pure ⟨"CPU Usage: ".data ++ fmtf m.cpu.percent 0 ++ ['%'], spark, cores,
    "CPU Cores".data, "red".data⟩

/-- `Dashboard._create_memory_visual` (dashboard.py:99-105). -/
def _create_memory_visual (m : SystemMonitor) : Option GroupPanel := do
  let spark ← create_sparkline m.memory_history 80 5
  let breakdown ← create_memory_breakdown m.memory 80
  pure ⟨"Memory: ".data ++ fmtf m.memory.percent 0 ++ ['%'], spark, breakdown,
    "Memory & Swap".data, "green".data⟩

/-- `Dashboard._create_network_visual` (dashboard.py:107-109). -/
def _create_network_visual (m : SystemMonitor) : Option Panel :=
  create_network_visualization m.network 80

/-- `limit = max(8, height // 3, 20)` (dashboard.py:113). -/
def proc_limit (height : ℕ) : ℕ := max (max 8 (height / 3)) 20

/-- `Dashboard._create_processes_visual` (dashboard.py:111-119): fetch `limit + 5`
records, re-sort (stably) by memory when the sort key is `"memory"`, truncate to
`limit`, and build the table with the default table limit (12) and default console
width (80). -/
def _create_processes_visual (m : SystemMonitor) (sort_by : List Char)
    (console_height : ℕ) : Panel :=
  let limit := proc_limit console_height
  let procs := get_process_info m (limit + 5)
  let procs2 := if sort_by = "memory".data then procs.mergeSort mem_desc else procs
  create_mini_process_table (procs2.take limit) 12 80

/-- `Dashboard.render` (dashboard.py:67-83): update the provider history first
(unconditionally), then build every region from the updated monitor state. -/
def render (d : Dashboard) : Option (Dashboard × RenderedLayout) := do
  let m := update_history d.monitor
  let cores ← _create_cpu_cores m
  let memory_panel ← _create_memory_visual m
  let network ← _create_network_visual m
  pure ({ d with monitor := m },
    ⟨_create_header, _create_footer, _dashboard_gauges m, cores, memory_panel, network,
      _create_processes_visual m d.sort_processes_by d.console_height⟩)

/-- `Dashboard.set_process_sort` (dashboard.py:121-123). -/
def set_process_sort (d : Dashboard) (sort_by : List Char) : Dashboard :=
  if sort_by = "cpu".data ∨ sort_by = "memory".data then
    { d with sort_processes_by := sort_by }
  else d

/-- A concrete provider state: empty histories, one core at 50%, memory 1 GiB used of
2 GiB, one process. -/
def mon0 : SystemMonitor :=
  ⟨120, [], [], ⟨50, [10]⟩, ⟨40, 2 ^ 30, 2 ^ 31⟩, ⟨10⟩, ⟨0, 0⟩, [⟨1, "a".data, 10, 10⟩]⟩

/-- A freshly initialised controller over `mon0` with a 24-row terminal. -/
def dash0 : Dashboard := dashboard_init mon0 24

/-- A controller whose sort key is `"memory"`, over two processes whose cpu and memory
orders disagree: pid 1 has cpu 90 / memory 10, pid 2 has cpu 10 / memory 90. -/
def dash1 : Dashboard :=
  ⟨⟨120, [], [], ⟨50, [10]⟩, ⟨40, 2 ^ 30, 2 ^ 31⟩, ⟨10⟩, ⟨0, 0⟩,
    [⟨1, "a".data, 90, 10⟩, ⟨2, "b".data, 10, 90⟩]⟩, "memory".data, 24⟩

example : create_sparkline [] 5 8 = some [' ',' ',' ',' ',' '] := by
  simp [create_sparkline]

example : create_sparkline [5] 80 8 = some [' '] := by
  norm_num [create_sparkline, render_sparks, spark_char, pymin, pymax, pydiv, pytrunc,
    pyslice_last, spark_chars]

example : create_sparkline [0, 9] 80 8 = some [' ', '█'] := by
  norm_num [create_sparkline, render_sparks, spark_char, pymin, pymax, pydiv, pytrunc,
    pyslice_last, spark_chars]
  decide

theorem spark_char_exists (min_val range_val value : ℚ) (hr : range_val ≠ 0) :
    ∃ c, spark_char min_val range_val value = some c := by
  simp [spark_char, pydiv, hr]

theorem render_sparks_exists (min_val range_val : ℚ) (hr : range_val ≠ 0) (l : List ℚ) :
    ∃ cs, render_sparks min_val range_val l = some cs ∧ cs.length = l.length := by
  induction l with
  | nil => exact ⟨[], rfl, rfl⟩
  | cons v rest ih =>
    obtain ⟨cs, hcs, hlen⟩ := ih
    obtain ⟨c, hc⟩ := spark_char_exists min_val range_val v hr
    exact ⟨c :: cs, by simp [render_sparks, hc, hcs], by simp [hlen]⟩

theorem sparkline_range_ne_zero (data : List ℚ) :
    (if pymax data ≠ pymin data then pymax data - pymin data else 1) ≠ 0 := by
  split
  · exact sub_ne_zero.mpr (by assumption)
  · exact one_ne_zero

/-- C1: for the empty series, `create_sparkline` returns exactly `width` spaces; for a
non-empty series and `width ≥ 1`, the returned string has length
`min (length of series) width` (one glyph per retained sample). -/
theorem C1_sparkline_length (data : List ℚ) (width height : ℕ) :
    (data = [] → create_sparkline data width height = some (List.replicate width ' ')) ∧
    (data ≠ [] → 1 ≤ width →
      ∃ s, create_sparkline data width height = some s ∧ s.length = min data.length width) := by
  constructor
  · rintro rfl
    simp [create_sparkline]
  · intro hne hw
    obtain ⟨cs, hcs, hlen⟩ := render_sparks_exists (pymin data) _ (sparkline_range_ne_zero data)
      (if data.length > width then pyslice_last width data else data)
    refine ⟨cs, ?_, ?_⟩
    · simp only [create_sparkline, List.isEmpty_eq_true]
      rw [if_neg hne]
      exact hcs
    · rw [hlen]
      by_cases h : data.length > width
      · rw [if_pos h, pyslice_last, if_neg (by omega), List.length_drop]
        omega
      · rw [if_neg h]
        omega

theorem C1_sparkline_length_witness :
    ∃ s, create_sparkline [10, 20] 1 8 = some s ∧ s.length = min 2 1 :=
  (C1_sparkline_length [10, 20] 1 8).2 (List.cons_ne_nil _ _) (by omega)

theorem foldl_max_const (c : ℚ) : ∀ (l : List ℚ), (∀ x ∈ l, x = c) → l.foldl max c = c
  | [], _ => rfl
  | v :: vs, h => by
      have hv : v = c := h v (by simp)
      rw [List.foldl_cons, hv, max_self]
      exact foldl_max_const c vs (fun x hx => h x (by simp [hx]))

theorem foldl_min_const (c : ℚ) : ∀ (l : List ℚ), (∀ x ∈ l, x = c) → l.foldl min c = c
  | [], _ => rfl
  | v :: vs, h => by
      have hv : v = c := h v (by simp)
      rw [List.foldl_cons, hv, min_self]
      exact foldl_min_const c vs (fun x hx => h x (by simp [hx]))

theorem pymax_const {data : List ℚ} {c : ℚ} (hne : data ≠ []) (h : ∀ x ∈ data, x = c) :
    pymax data = c := by
  cases data with
  | nil => exact absurd rfl hne
  | cons v vs =>
    have hv : v = c := h v (by simp)
    rw [pymax, hv]
    exact foldl_max_const c vs (fun x hx => h x (by simp [hx]))

theorem pymin_const {data : List ℚ} {c : ℚ} (hne : data ≠ []) (h : ∀ x ∈ data, x = c) :
    pymin data = c := by
  cases data with
  | nil => exact absurd rfl hne
  | cons v vs =>
    have hv : v = c := h v (by simp)
    rw [pymin, hv]
    exact foldl_min_const c vs (fun x hx => h x (by simp [hx]))

theorem spark_char_flat (c : ℚ) : spark_char c 1 c = some ' ' := by
  norm_num [spark_char, pydiv, pytrunc, spark_chars]

theorem render_sparks_flat (c : ℚ) : ∀ (l : List ℚ), (∀ x ∈ l, x = c) →
    render_sparks c 1 l = some (List.replicate l.length ' ')
  | [], _ => rfl
  | v :: rest, h => by
      have hv : v = c := h v (by simp)
      subst hv
      rw [render_sparks, spark_char_flat,
        render_sparks_flat v rest (fun x hx => h x (by simp [hx]))]
      rfl

theorem mem_pyslice_last {n : ℕ} {xs : List α} {x : α} (h : x ∈ pyslice_last n xs) : x ∈ xs := by
  rw [pyslice_last] at h
  split at h
  · exact h
  · exact List.mem_of_mem_drop h

/-- C3 counterexample: `create_sparkline` on the constant series `[5.0]` returns the
single blank glyph `' '` (index 0 of `spark_chars`), which is not the lowest
non-blank block character `'▁'`. -/
theorem C3_flat_sparkline_counterexample :
    create_sparkline [5] 80 8 = some [' '] ∧ (' ' : Char) ≠ '▁' := by
  constructor
  · norm_num [create_sparkline, render_sparks, spark_char, pymin, pymax, pydiv, pytrunc,
      pyslice_last, spark_chars]
  · decide

/-- C3 (amended): for every constant series of length ≥ 1, `create_sparkline` divides by
the fallback range 1 (never by zero), and every character of the output is identical and
equal to the blank glyph `spark_chars[0] = ' '` (not the lowest non-blank block character). -/
theorem C3_flat_sparkline (data : List ℚ) (c : ℚ) (hne : data ≠ []) (h : ∀ x ∈ data, x = c)
    (width height : ℕ) :
    (if pymax data ≠ pymin data then pymax data - pymin data else 1) = 1 ∧
    ∃ s, create_sparkline data width height = some s ∧ ∀ ch ∈ s, ch = spark_chars.getD 0 ' ' := by
  have hmax := pymax_const hne h
  have hmin := pymin_const hne h
  have hrange : (if pymax data ≠ pymin data then pymax data - pymin data else 1) = 1 := by
    rw [if_neg]
    simp [hmax, hmin]
  refine ⟨hrange, ?_⟩
  set recent := if data.length > width then pyslice_last width data else data with hrec
  have hrecmem : ∀ x ∈ recent, x = c := by
    intro x hx
    rw [hrec] at hx
    split at hx
    · exact h x (mem_pyslice_last hx)
    · exact h x hx
  refine ⟨List.replicate recent.length ' ', ?_, ?_⟩
  · simp only [create_sparkline, List.isEmpty_eq_true]
    rw [if_neg hne, hrange, hmin, ← hrec]
    exact render_sparks_flat c recent hrecmem
  · intro ch hch
    have := List.eq_of_mem_replicate hch
    simp [this, spark_chars]

theorem C3_flat_sparkline_witness :
    (if pymax [5] ≠ pymin [5] then pymax [5] - pymin [5] else 1) = 1 ∧
    ∃ s, create_sparkline [5] 80 8 = some s ∧ ∀ ch ∈ s, ch = spark_chars.getD 0 ' ' :=
  C3_flat_sparkline [5] 5 (List.cons_ne_nil _ _) (by simp) 80 8

theorem foldl_max_init_le (init : ℚ) : ∀ (l : List ℚ), init ≤ l.foldl max init
  | [] => le_refl _
  | v :: vs => le_trans (le_max_left init v) (foldl_max_init_le (max init v) vs)

theorem mem_le_foldl_max (init : ℚ) : ∀ (l : List ℚ), ∀ x ∈ l, x ≤ l.foldl max init
  | v :: vs, x, hx => by
      rcases List.mem_cons.mp hx with h | h
      · subst h
        exact le_trans (le_max_right init x) (foldl_max_init_le (max init x) vs)
      · exact mem_le_foldl_max (max init v) vs x h

theorem le_pymax {l : List ℚ} : ∀ x ∈ l, x ≤ pymax l := by
  cases l with
  | nil => intro x hx; cases hx
  | cons v vs =>
    intro x hx
    rcases List.mem_cons.mp hx with h | h
    · subst h
      exact foldl_max_init_le x vs
    · exact mem_le_foldl_max v vs x h

theorem pytrunc_of_nonneg {q : ℚ} (h : 0 ≤ q) : pytrunc q = ⌊q⌋ := if_pos h

theorem hbar_bw_exists (max_val : ℚ) (mw : ℕ) (value : ℚ) :
    ∃ bw, hbar_bw max_val mw value = some bw := by
  by_cases hpos : max_val > 0
  · exact ⟨pytrunc (value / max_val * (mw : ℚ)), by
      simp [hbar_bw, hpos, pydiv, ne_of_gt hpos]⟩
  · exact ⟨0, by simp [hbar_bw, hpos]⟩

theorem hbar_bw_spec (max_val : ℚ) (mw : ℕ) (value : ℚ) (hv : 0 ≤ value) :
    hbar_bw max_val mw value = some (spec_hbar_fill max_val mw value) := by
  by_cases hpos : max_val > 0
  · have hnn : 0 ≤ value / max_val * (mw : ℚ) :=
      mul_nonneg (div_nonneg hv (le_of_lt hpos)) (Nat.cast_nonneg mw)
    simp [hbar_bw, hpos, pydiv, ne_of_gt hpos, spec_hbar_fill, pytrunc_of_nonneg hnn]
  · simp [hbar_bw, hpos, spec_hbar_fill]

theorem render_hbars_exists (max_val : ℚ) (mw : ℕ) :
    ∀ (l : List (List Char × ℚ)), ∃ ls, render_hbars max_val mw l = some ls ∧ ls.length = l.length
  | [] => ⟨[], rfl, rfl⟩
  | (label, value) :: rest => by
      obtain ⟨ls, hls, hlen⟩ := render_hbars_exists max_val mw rest
      obtain ⟨bw, hbw⟩ := hbar_bw_exists max_val mw value
      simp only [render_hbars, hbw, hls, Option.some_bind]
      exact ⟨_, rfl, by simp [hlen]⟩

theorem render_hbars_spec (max_val : ℚ) (mw : ℕ) :
    ∀ (l : List (List Char × ℚ)), (∀ lv ∈ l, 0 ≤ lv.2) →
      render_hbars max_val mw l = some (l.map (spec_hbar_row max_val mw))
  | [], _ => rfl
  | (label, value) :: rest, h => by
      have ih := render_hbars_spec max_val mw rest (fun lv hlv => h lv (by simp [hlv]))
      have hbw := hbar_bw_spec max_val mw value (h (label, value) (by simp))
      simp only [render_hbars, hbw, ih, Option.some_bind, List.map_cons]
      simp [spec_hbar_row, List.append_assoc]

theorem spec_hbar_fill_bounds (max_val : ℚ) (mw : ℕ) (value : ℚ) (hv : 0 ≤ value)
    (hle : value ≤ max_val) :
    0 ≤ spec_hbar_fill max_val mw value ∧ spec_hbar_fill max_val mw value ≤ (mw : ℤ) := by
  rw [spec_hbar_fill]
  split
  · rename_i hpos
    constructor
    · exact Int.floor_nonneg.mpr (mul_nonneg (div_nonneg hv (le_of_lt hpos)) (Nat.cast_nonneg mw))
    · have h1 : value / max_val ≤ 1 := (div_le_one hpos).mpr hle
      have h2 : value / max_val * (mw : ℚ) ≤ (mw : ℚ) := by
        calc value / max_val * (mw : ℚ) ≤ 1 * (mw : ℚ) :=
              mul_le_mul_of_nonneg_right h1 (Nat.cast_nonneg mw)
          _ = (mw : ℚ) := one_mul _
      calc ⌊value / max_val * (mw : ℚ)⌋ ≤ ⌊((mw : ℤ) : ℚ)⌋ := by
            exact Int.floor_le_floor (by exact_mod_cast h2)
        _ = (mw : ℤ) := Int.floor_intCast _
  · exact ⟨le_refl 0, Int.ofNat_nonneg mw⟩

/-- C8 counterexample: for the single-entry mapping `CPU ↦ 50.0` with `maxWidth = 4`,
the rendered row is `"CPU    ████  50.0%"` — the 6-character label field comes first and
the 4 solid blocks follow it, so the row does not begin with the `filledWidth = 4` solid
blocks that the claim places first. -/
theorem C8_horizontal_bars_counterexample :
    (create_horizontal_bars [("CPU".data, 50)] 4).map Panel.lines =
      some ["CPU    ████  50.0%".data] ∧
    "CPU    ████  50.0%".data.take 4 ≠ List.replicate 4 '█' := by
  constructor
  · norm_num [create_horizontal_bars, render_hbars, hbar_bw, pymax, pydiv, pytrunc, pad_right,
      fmtf, rhe]
    decide
  · decide

/-- C8 (amended): for every non-empty label-to-value mapping with non-negative values,
`create_horizontal_bars` renders each row as the label in a 6-character field, then
`filledWidth = floor(value/maxVal * maxWidth)` solid blocks followed by
`maxWidth - filledWidth` light-shade blocks, then the value to 1 decimal with a trailing
`%`; when all values are 0 every row has zero filled blocks; in every case the
filled-length lies in `[0, maxWidth]`. -/
theorem C8_horizontal_bars (data : List (List Char × ℚ)) (mw : ℕ) (hne : data ≠ [])
    (hnn : ∀ lv ∈ data, 0 ≤ lv.2) :
    ∃ p, create_horizontal_bars data mw = some p ∧
      p.lines = data.map (spec_hbar_row (pymax (data.map Prod.snd)) mw) ∧
      (∀ lv ∈ data, 0 ≤ spec_hbar_fill (pymax (data.map Prod.snd)) mw lv.2 ∧
        spec_hbar_fill (pymax (data.map Prod.snd)) mw lv.2 ≤ (mw : ℤ)) ∧
      ((∀ lv ∈ data, lv.2 = 0) →
        ∀ lv ∈ data, spec_hbar_fill (pymax (data.map Prod.snd)) mw lv.2 = 0) := by
  have hmapne : data.map Prod.snd ≠ [] := by
    simp [List.map_eq_nil_iff, hne]
  have hspec := render_hbars_spec (pymax (data.map Prod.snd)) mw data hnn
  refine ⟨⟨data.map (spec_hbar_row (pymax (data.map Prod.snd)) mw), none, "green".data⟩,
    ?_, rfl, ?_, ?_⟩
  · simp only [create_horizontal_bars]
    rw [if_neg (by simp [hne]), if_neg (by simp [hmapne]), hspec]
    rfl
  · intro lv hlv
    exact spec_hbar_fill_bounds _ mw lv.2 (hnn lv hlv)
      (le_pymax lv.2 (List.mem_map_of_mem Prod.snd hlv))
  · intro hz lv hlv
    have hmax0 : pymax (data.map Prod.snd) = 0 := by
      refine pymax_const hmapne ?_
      intro x hx
      obtain ⟨lv', hlv', rfl⟩ := List.mem_map.mp hx
      exact hz lv' hlv'
    simp [spec_hbar_fill, hmax0]

theorem C8_horizontal_bars_witness :
    ∃ p, create_horizontal_bars [("CPU".data, 30)] 10 = some p ∧
      p.lines = [("CPU".data, (30:ℚ))].map (spec_hbar_row (pymax [(30:ℚ)]) 10) ∧
      (∀ lv ∈ [("CPU".data, (30:ℚ))], 0 ≤ spec_hbar_fill (pymax [(30:ℚ)]) 10 lv.2 ∧
        spec_hbar_fill (pymax [(30:ℚ)]) 10 lv.2 ≤ (10 : ℤ)) ∧
      ((∀ lv ∈ [("CPU".data, (30:ℚ))], lv.2 = 0) →
        ∀ lv ∈ [("CPU".data, (30:ℚ))], spec_hbar_fill (pymax [(30:ℚ)]) 10 lv.2 = 0) :=
  C8_horizontal_bars [("CPU".data, 30)] 10 (List.cons_ne_nil _ _) (by norm_num)

theorem vbar_widths_exists (max_val : ℚ) (width : ℕ) :
    ∀ (l : List ℚ), ∃ ws, vbar_widths max_val width l = some ws
  | [] => ⟨[], rfl⟩
  | v :: rest => by
      obtain ⟨ws, hws⟩ := vbar_widths_exists max_val width rest
      obtain ⟨bw, hbw⟩ := hbar_bw_exists max_val width v
      exact ⟨bw :: ws, by simp only [vbar_widths, hbw, hws]; rfl⟩

theorem create_vertical_bars_exists (data : List (List Char × ℚ)) (height width : ℕ) :
    ∃ p, create_vertical_bars data height width = some p := by
  by_cases hne : data.isEmpty
  · exact ⟨⟨["No data".data], none, "red".data⟩, by simp [create_vertical_bars, hne]⟩
  · obtain ⟨ws, hws⟩ := vbar_widths_exists
      (if (data.map Prod.snd).isEmpty then 1 else pymax (data.map Prod.snd)) width
      (data.map Prod.snd)
    simp only [create_vertical_bars]
    rw [if_neg hne, hws]
    exact ⟨_, rfl⟩

/-- C6: on the empty input collection, each of `create_vertical_bars`,
`create_horizontal_bars` and `create_mini_process_table` returns its explicit
placeholder panel (`"No data"` / `"No processes"`, red border) and, being a defined
total result, never raises an error. -/
theorem C6_empty_placeholders (height width max_width limit console_width : ℕ) :
    create_vertical_bars [] height width = some ⟨["No data".data], none, "red".data⟩ ∧
    create_horizontal_bars [] max_width = some ⟨["No data".data], none, "red".data⟩ ∧
    create_mini_process_table [] limit console_width = ⟨["No processes".data], none, "red".data⟩ :=
  ⟨rfl, rfl, rfl⟩

theorem cpu_desc_trans : ∀ (a b c : Proc), cpu_desc a b → cpu_desc b c → cpu_desc a c := by
  intro a b c hab hbc
  simp only [cpu_desc, decide_eq_true_eq] at *
  exact le_trans hbc hab

theorem cpu_desc_total : ∀ (a b : Proc), cpu_desc a b || cpu_desc b a := by
  intro a b
  simp only [cpu_desc, Bool.or_eq_true, decide_eq_true_eq]
  exact le_total b.cpu_percent a.cpu_percent

theorem sorted_procs_sorted (processes : List Proc) :
    (sorted_procs processes).Pairwise (fun a b => b.cpu_percent ≤ a.cpu_percent) := by
  have h := List.sorted_mergeSort cpu_desc_trans cpu_desc_total processes
  exact h.imp (by simp only [cpu_desc, decide_eq_true_eq]; exact fun h => h)

theorem sorted_procs_stable (processes : List Proc) (c : ℚ) :
    (sorted_procs processes).filter (fun p => decide (p.cpu_percent = c)) =
      processes.filter (fun p => decide (p.cpu_percent = c)) := by
  set pred : Proc → Bool := fun p => decide (p.cpu_percent = c) with hpred
  have hmemc : ∀ x ∈ processes.filter pred, x.cpu_percent = c := by
    intro x hx
    have := List.of_mem_filter hx
    simpa [hpred] using this
  have hpw : (processes.filter pred).Pairwise (fun a b => cpu_desc a b = true) := by
    apply List.pairwise_of_forall_mem_list
    intro a ha b hb
    simp only [cpu_desc, decide_eq_true_eq, hmemc a ha, hmemc b hb]
    exact le_refl c
  have hsub : List.Sublist (processes.filter pred) (sorted_procs processes) :=
    List.sublist_mergeSort cpu_desc_trans cpu_desc_total hpw (List.filter_sublist processes)
  have hsub2 : List.Sublist ((processes.filter pred).filter pred)
      ((sorted_procs processes).filter pred) :=
    hsub.filter pred
  rw [List.filter_filter] at hsub2
  have hself : processes.filter (fun a => pred a && pred a) = processes.filter pred := by
    simp
  rw [hself] at hsub2
  have hperm : List.Perm ((sorted_procs processes).filter pred) (processes.filter pred) :=
    (List.mergeSort_perm processes cpu_desc).filter pred
  exact ((hsub2.eq_of_length hperm.length_eq.symm)).symm

theorem sorted_procs_perm (processes : List Proc) :
    List.Perm (sorted_procs processes) processes :=
  List.mergeSort_perm processes cpu_desc

/-- C9: for every non-empty process list, `create_mini_process_table` emits a header, a
separator, then the data rows of the cpu-descending stable sort truncated to `limit`
(at most `limit` rows; ties keep input order: filtering sorted output at any cpu value
equals filtering the input); for `[{pid 1, cpu 10}, {pid 2, cpu 90}]` pid 2's row comes
before pid 1's row. -/
theorem C9_table_order (processes : List Proc) (limit console_width : ℕ)
    (hne : processes ≠ []) :
    (create_mini_process_table processes limit console_width).lines =
      table_header :: table_sep console_width ::
        ((sorted_procs processes).take limit).map (proc_row console_width) ∧
    (sorted_procs processes).Pairwise (fun a b => b.cpu_percent ≤ a.cpu_percent) ∧
    (∀ c : ℚ, (sorted_procs processes).filter (fun p => decide (p.cpu_percent = c)) =
      processes.filter (fun p => decide (p.cpu_percent = c))) ∧
    (((sorted_procs processes).take limit).map (proc_row console_width)).length ≤ limit ∧
    (create_mini_process_table [⟨1, "a".data, 10, 10⟩, ⟨2, "b".data, 90, 90⟩] 12 80).lines =
      [table_header, table_sep 80,
        proc_row 80 ⟨2, "b".data, 90, 90⟩, proc_row 80 ⟨1, "a".data, 10, 10⟩] := by
  refine ⟨?_, sorted_procs_sorted processes, sorted_procs_stable processes, ?_, ?_⟩
  · rw [create_mini_process_table, if_neg (by simp [hne])]
  · simp [List.length_take]
  · have hsorted : sorted_procs [⟨1, "a".data, 10, 10⟩, ⟨2, "b".data, 90, 90⟩] =
        [⟨2, "b".data, 90, 90⟩, ⟨1, "a".data, 10, 10⟩] := by
      norm_num [sorted_procs, List.mergeSort, List.merge, cpu_desc]
    rw [create_mini_process_table, if_neg (by simp), hsorted]
    rfl

theorem C9_table_order_witness :
    (create_mini_process_table [⟨1, "a".data, 10, 10⟩, ⟨2, "b".data, 90, 90⟩] 12 80).lines =
      table_header :: table_sep 80 ::
        ((sorted_procs [⟨1, "a".data, 10, 10⟩, ⟨2, "b".data, 90, 90⟩]).take 12).map
          (proc_row 80) ∧
    (sorted_procs [⟨1, "a".data, 10, 10⟩, ⟨2, "b".data, 90, 90⟩]).Pairwise
      (fun a b => b.cpu_percent ≤ a.cpu_percent) ∧
    (∀ c : ℚ, (sorted_procs [⟨1, "a".data, 10, 10⟩, ⟨2, "b".data, 90, 90⟩]).filter
        (fun p => decide (p.cpu_percent = c)) =
      [Proc.mk 1 "a".data 10 10, Proc.mk 2 "b".data 90 90].filter
        (fun p => decide (p.cpu_percent = c))) ∧
    (((sorted_procs [⟨1, "a".data, 10, 10⟩, ⟨2, "b".data, 90, 90⟩]).take 12).map
      (proc_row 80)).length ≤ 12 ∧
    (create_mini_process_table [⟨1, "a".data, 10, 10⟩, ⟨2, "b".data, 90, 90⟩] 12 80).lines =
      [table_header, table_sep 80,
        proc_row 80 ⟨2, "b".data, 90, 90⟩, proc_row 80 ⟨1, "a".data, 10, 10⟩] :=
  C9_table_order [⟨1, "a".data, 10, 10⟩, ⟨2, "b".data, 90, 90⟩] 12 80 (List.cons_ne_nil _ _)

/-- C5 counterexample: the bar width `create_cpu_core_visualization` passes to the
vertical-bar renderer at console width 80 is `max(20, min(40, 80 // 8)) = 20`, not the
`10` asserted by the claim's `clamp(20, 40, 10) = 10`. -/
theorem C5_cpu_cores_counterexample :
    cpu_core_bar_width 80 = 20 ∧ cpu_core_bar_width 80 ≠ 10 := by
  decide

theorem create_vertical_bars_shape (data : List (List Char × ℚ)) (height width : ℕ)
    (hne : data ≠ []) :
    ∃ p, create_vertical_bars data height width = some p ∧
      p.lines.getLast? = some (vbar_label_line (data.map Prod.fst)) := by
  obtain ⟨ws, hws⟩ := vbar_widths_exists
    (if (data.map Prod.snd).isEmpty then 1 else pymax (data.map Prod.snd)) width
    (data.map Prod.snd)
  simp only [create_vertical_bars]
  rw [if_neg (by simp [hne]), hws]
  exact ⟨_, rfl, by simp⟩

/-- C5 (amended): for the 3-core snapshot `[10.0, 50.0, 90.0]` and console width 80,
`create_cpu_core_visualization` renders the labels `C00`, `C01`, `C02` through
`create_vertical_bars` at fixed height 8 with bar width `clamp(20, 40, 80//8) =
clamp(20, 40, 10) = 20` (not 10), and the returned panel's label row carries the three
labels. -/
theorem C5_cpu_cores :
    cpu_core_bar_width 80 = 20 ∧
    create_cpu_core_visualization ⟨50, [10, 50, 90]⟩ 80 =
      create_vertical_bars [("C00".data, 10), ("C01".data, 50), ("C02".data, 90)] 8 20 ∧
    ∃ p, create_cpu_core_visualization ⟨50, [10, 50, 90]⟩ 80 = some p ∧
      p.lines.getLast? =
        some "C00       C01       C02       ".data := by
  refine ⟨rfl, rfl, ?_⟩
  obtain ⟨p, hp, hlast⟩ := create_vertical_bars_shape
    [("C00".data, 10), ("C01".data, 50), ("C02".data, 90)] 8 20 (List.cons_ne_nil _ _)
  refine ⟨p, hp, ?_⟩
  rw [hlast]
  decide

theorem create_sparkline_exists (data : List ℚ) (width height : ℕ) :
    ∃ s, create_sparkline data width height = some s := by
  by_cases he : data.isEmpty
  · exact ⟨List.replicate width ' ', by simp [create_sparkline, he]⟩
  · obtain ⟨cs, hcs, _⟩ := render_sparks_exists (pymin data) _ (sparkline_range_ne_zero data)
      (if data.length > width then pyslice_last width data else data)
    refine ⟨cs, ?_⟩
    simp only [create_sparkline]
    rw [if_neg he]
    exact hcs

theorem create_horizontal_bars_exists (data : List (List Char × ℚ)) (mw : ℕ) :
    ∃ p, create_horizontal_bars data mw = some p := by
  by_cases hne : data.isEmpty
  · exact ⟨⟨["No data".data], none, "red".data⟩, by simp [create_horizontal_bars, hne]⟩
  · obtain ⟨ls, hls, _⟩ := render_hbars_exists
      (if (data.map Prod.snd).isEmpty then 1 else pymax (data.map Prod.snd)) mw data
    simp only [create_horizontal_bars]
    rw [if_neg hne, hls]
    exact ⟨_, rfl⟩

/-- C2 counterexample: the well-typed memory snapshot with `total = 0` makes
`create_memory_breakdown` divide by zero — the source computes `used_gb / total_gb`
with no guard, raising `ZeroDivisionError` (modelled by `none`), so the function is
not defined on every well-typed snapshot. -/
theorem C2_memory_breakdown_counterexample :
    create_memory_breakdown ⟨0, 0, 0⟩ 80 = none := by
  norm_num [create_memory_breakdown, pydiv]

theorem create_memory_breakdown_defined (memory : MemoryInfo) (cw : ℕ)
    (htot : memory.total ≠ 0) :
    ∃ p, create_memory_breakdown memory cw = some p := by
  have htg : ((memory.total : ℚ) / (1024 ^ 3)) ≠ 0 := by
    apply div_ne_zero
    · exact_mod_cast htot
    · norm_num
  simp [create_memory_breakdown, pydiv, htg]
  exact create_horizontal_bars_exists _ _

/-- C2 (amended): `create_sparkline`, `create_vertical_bars` and
`create_horizontal_bars` guard every data-dependent denominator (max-with-1 or
equivalent) and are defined on every well-typed input, but `create_memory_breakdown`
divides by the unguarded total: it raises `ZeroDivisionError` when `total = 0` and is
defined whenever `total ≠ 0`. -/
theorem C2_no_division_by_zero :
    (∀ (data : List ℚ) (width height : ℕ), ∃ s, create_sparkline data width height = some s) ∧
    (∀ (data : List (List Char × ℚ)) (height width : ℕ),
      ∃ p, create_vertical_bars data height width = some p) ∧
    (∀ (data : List (List Char × ℚ)) (mw : ℕ),
      ∃ p, create_horizontal_bars data mw = some p) ∧
    (∀ (memory : MemoryInfo) (cw : ℕ), memory.total ≠ 0 →
      ∃ p, create_memory_breakdown memory cw = some p) :=
  ⟨create_sparkline_exists, create_vertical_bars_exists, create_horizontal_bars_exists,
    create_memory_breakdown_defined⟩

theorem C2_no_division_by_zero_witness :
    ∃ p, create_memory_breakdown ⟨50, 2 ^ 30, 2 ^ 31⟩ 80 = some p :=
  C2_no_division_by_zero.2.2.2 ⟨50, 2 ^ 30, 2 ^ 31⟩ 80 (by norm_num)

theorem create_cpu_core_visualization_exists (cpu : CpuInfo) (cw : ℕ) :
    ∃ p, create_cpu_core_visualization cpu cw = some p := by
  by_cases he : cpu.percent_per_core.isEmpty
  · exact ⟨⟨["No core data".data], none, "red".data⟩,
      by simp [create_cpu_core_visualization, he]⟩
  · simp only [create_cpu_core_visualization]
    rw [if_neg he]
    exact create_vertical_bars_exists _ 8 _

theorem cpu_cores_region_exists (m : SystemMonitor) :
    ∃ g, _create_cpu_cores m = some g := by
  obtain ⟨s, hs⟩ := create_sparkline_exists m.cpu_history 80 6
  obtain ⟨p, hp⟩ := create_cpu_core_visualization_exists m.cpu 80
  exact ⟨⟨"CPU Usage: ".data ++ fmtf m.cpu.percent 0 ++ ['%'], s, p,
    "CPU Cores".data, "red".data⟩, by simp only [_create_cpu_cores, hs, hp]; rfl⟩

theorem memory_region_exists (m : SystemMonitor) (htot : m.memory.total ≠ 0) :
    ∃ g, _create_memory_visual m = some g := by
  obtain ⟨s, hs⟩ := create_sparkline_exists m.memory_history 80 5
  obtain ⟨p, hp⟩ := create_memory_breakdown_defined m.memory 80 htot
  exact ⟨⟨"Memory: ".data ++ fmtf m.memory.percent 0 ++ ['%'], s, p,
    "Memory & Swap".data, "green".data⟩, by simp only [_create_memory_visual, hs, hp]; rfl⟩

theorem network_region_exists (m : SystemMonitor) :
    ∃ p, _create_network_visual m = some p := by
  simp only [_create_network_visual, create_network_visualization]
  exact create_horizontal_bars_exists _ _

theorem render_defined (d : Dashboard) (htot : d.monitor.memory.total ≠ 0) :
    ∃ r, render d = some r ∧
      r.1.monitor = update_history d.monitor ∧
      r.1.sort_processes_by = d.sort_processes_by ∧
      r.2.processes =
        _create_processes_visual (update_history d.monitor) d.sort_processes_by
          d.console_height := by
  obtain ⟨cores, hcores⟩ := cpu_cores_region_exists (update_history d.monitor)
  obtain ⟨mp, hmp⟩ := memory_region_exists (update_history d.monitor)
    (by simpa [update_history] using htot)
  obtain ⟨np, hnp⟩ := network_region_exists (update_history d.monitor)
  refine ⟨({ d with monitor := update_history d.monitor },
    ⟨_create_header, _create_footer, _dashboard_gauges (update_history d.monitor), cores, mp,
      np, _create_processes_visual (update_history d.monitor) d.sort_processes_by
        d.console_height⟩), ?_, rfl, rfl, rfl⟩
  simp only [render, hcores, hmp, hnp]
  rfl

/-- C4 counterexample: the freshly initialised controller `dash0` (whose state carries
no paused flag — `Dashboard.__init__` stores only the sort key) starts with an empty
rolling history, and one call to `render()` appends the current snapshot to it: the
code contains no paused state in which `render()` leaves the rolling history
unchanged. -/
theorem C4_render_counterexample :
    dash0.monitor.cpu_history = [] ∧
    (render dash0).map (fun r => r.1.monitor.cpu_history) = some [50] := by
  have htot : dash0.monitor.memory.total ≠ 0 := by
    norm_num [dash0, dashboard_init, mon0]
  obtain ⟨r, hr, hm, _, _⟩ := render_defined dash0 htot
  refine ⟨rfl, ?_⟩
  rw [hr, Option.map_some', hm]
  norm_num [dash0, dashboard_init, mon0, update_history, roll_append]

/-- C4 (amended): the dashboard controller's state includes no paused flag — its UI
state is just the sort key — and each call to `render()` unconditionally requests the
data provider to append the current snapshot to its rolling history: the monitor
component of every successful render is exactly `update_history` of the previous
monitor state, with the rest of the controller state unchanged. -/
theorem C4_render_updates_history (d : Dashboard) (r : Dashboard × RenderedLayout)
    (h : render d = some r) :
    r.1.monitor = update_history d.monitor ∧
    r.1.sort_processes_by = d.sort_processes_by ∧
    r.1.console_height = d.console_height ∧
    (update_history d.monitor).cpu_history =
      roll_append d.monitor.history_size d.monitor.cpu_history d.monitor.cpu.percent ∧
    (update_history d.monitor).memory_history =
      roll_append d.monitor.history_size d.monitor.memory_history d.monitor.memory.percent := by
  rw [render] at h
  rcases hc : _create_cpu_cores (update_history d.monitor) with _ | cores
  · rw [hc] at h; cases h
  · rw [hc] at h
    rcases hm2 : _create_memory_visual (update_history d.monitor) with _ | mp
    · rw [hm2] at h; cases h
    · rw [hm2] at h
      rcases hn : _create_network_visual (update_history d.monitor) with _ | np
      · rw [hn] at h; cases h
      · rw [hn] at h
        injection h with h
        subst h
        exact ⟨rfl, rfl, rfl, rfl, rfl⟩

theorem C4_render_updates_history_witness :
    ∃ r, render dash0 = some r ∧ r.1.monitor = update_history dash0.monitor := by
  have htot : dash0.monitor.memory.total ≠ 0 := by
    norm_num [dash0, dashboard_init, mon0]
  obtain ⟨r, hr, _⟩ := render_defined dash0 htot
  exact ⟨r, hr, (C4_render_updates_history dash0 r hr).1⟩

/-- C7 counterexample: with the stored sort key `"memory"`, `render()` does not order
the process rows by `memoryPercent` descending — `create_mini_process_table` re-sorts
by `cpuPercent` descending, so pid 1's row (cpu 90, memory 10) precedes pid 2's row
(cpu 10, memory 90) although pid 1's memory share is strictly smaller. -/
theorem C7_counterexample :
    ∃ r, render dash1 = some r ∧
      r.2.processes.lines =
        [table_header, table_sep 80,
          proc_row 80 ⟨1, "a".data, 90, 10⟩, proc_row 80 ⟨2, "b".data, 10, 90⟩] ∧
      (Proc.mk 1 "a".data 90 10).memory_percent <
        (Proc.mk 2 "b".data 10 90).memory_percent := by
  have htot : dash1.monitor.memory.total ≠ 0 := by norm_num [dash1]
  obtain ⟨r, hr, _, _, hproc⟩ := render_defined dash1 htot
  refine ⟨r, hr, ?_, by norm_num⟩
  rw [hproc]
  norm_num [dash1, update_history, _create_processes_visual, proc_limit, get_process_info,
    create_mini_process_table, sorted_procs, List.mergeSort, List.merge, mem_desc, cpu_desc]

/-- C7 (amended): `set_process_sort` is a no-op for every key outside
`{"cpu", "memory"}`, and for `"memory"` it updates the stored sort key so that a
subsequent `render()` selects the top `limit` fetched records by `memoryPercent`
descending (stable) — but the displayed rows are then re-sorted by `cpuPercent`
descending by `create_mini_process_table`, so the rendered row order reflects
`cpuPercent`, not `memoryPercent`. -/
theorem C7_set_process_sort (d : Dashboard) (key : List Char)
    (hc : key ≠ "cpu".data) (hm : key ≠ "memory".data) :
    set_process_sort d key = d ∧
    (set_process_sort d "memory".data).sort_processes_by = "memory".data ∧
    (∀ (m : SystemMonitor) (h : ℕ),
      _create_processes_visual m "memory".data h =
        create_mini_process_table
          (((get_process_info m (proc_limit h + 5)).mergeSort mem_desc).take (proc_limit h))
          12 80) ∧
    (∀ procs : List Proc,
      (sorted_procs procs).Pairwise (fun a b => b.cpu_percent ≤ a.cpu_percent)) := by
  refine ⟨?_, ?_, ?_, fun procs => sorted_procs_sorted procs⟩
  · rw [set_process_sort, if_neg]
    push_neg
    exact ⟨hc, hm⟩
  · rw [set_process_sort, if_pos (Or.inr rfl)]
  · intro m h
    simp [_create_processes_visual]

theorem C7_set_process_sort_witness :
    set_process_sort dash0 "bogus".data = dash0 ∧
    (set_process_sort dash0 "memory".data).sort_processes_by = "memory".data ∧
    (∀ (m : SystemMonitor) (h : ℕ),
      _create_processes_visual m "memory".data h =
        create_mini_process_table
          (((get_process_info m (proc_limit h + 5)).mergeSort mem_desc).take (proc_limit h))
          12 80) ∧
    (∀ procs : List Proc,
      (sorted_procs procs).Pairwise (fun a b => b.cpu_percent ≤ a.cpu_percent)) :=
  C7_set_process_sort dash0 "bogus".data (by decide) (by decide)

/-- C10: `_create_processes_visual` computes `limit = max(8, height//3, 20) ≥ 20`,
fetches `limit + 5` records, truncates to `limit`, but calls the table renderer with
its default limit 12 and default console width 80, so for every terminal height and
provider state the processes panel holds at most 12 process rows (2 header lines plus
at most 12 data rows). -/
theorem C10_process_rows_bounded (m : SystemMonitor) (sort_by : List Char) (height : ℕ) :
    20 ≤ proc_limit height ∧
    _create_processes_visual m sort_by height =
      create_mini_process_table
        ((if sort_by = "memory".data
            then (get_process_info m (proc_limit height + 5)).mergeSort mem_desc
            else get_process_info m (proc_limit height + 5)).take (proc_limit height)) 12 80 ∧
    (∀ procs : List Proc, (((sorted_procs procs).take 12).map (proc_row 80)).length ≤ 12) ∧
    (_create_processes_visual m sort_by height).lines.length ≤ 14 := by
  refine ⟨le_max_right _ _, by simp [_create_processes_visual], ?_, ?_⟩
  · intro procs
    simp [List.length_take]
  · rw [_create_processes_visual, create_mini_process_table]
    split
    · split
      · simp
      · simp only [Panel.lines, List.length_cons, List.length_take, List.length_map]
        omega
    · split
      · simp
      · simp only [Panel.lines, List.length_cons, List.length_take, List.length_map]
        omega
